import Mathlib

/-!
Shallow embedding of the Prompty Veille single-page client
(frontend/src/App.js) for verification of its specification.

Every stateful React handler is modelled as a pure function from the
component state (plus the responses of the HTTP requests it awaits) to
the ordered list of requests it issues, the toast notifications it
fires (modelled by their kind only), and the updated component state.
JavaScript strings are Lean strings; the locale-sensitive
String.prototype.localeCompare is embedded as a total code-point
comparator, and Array.prototype.sort is embedded as a stable insertion
sort, matching the stability mandated by the ECMAScript specification.
Dates (created_at) are embedded as numeric timestamps.
-/

/-- Kind of a toast notification shown to the user by the sonner library. -/
inductive ToastKind
  | success
  | error
  deriving Repr, DecidableEq

/-- A summary as deserialized from the backend (section 3 of the data model). -/
structure Summary where
  id : Nat
  title : String
  summary : String
  source_name : String
  source_id : Option Nat
  category : Option String
  tags : Option (List String)
  created_at : Nat
  is_new : Bool
  deriving Repr, DecidableEq

/-- Code-point comparison of character lists: the embedding of the string
comparator underlying localeCompare. Returns -1, 0 or 1. -/
def charsCmp : List Char → List Char → Int
  | [], [] => 0
  | [], _ :: _ => -1
  | _ :: _, [] => 1
  | a :: as, b :: bs =>
    if a < b then -1 else if b < a then 1 else charsCmp as bs

/-- Embedding of (a.category || "").localeCompare(b.category || "") as a total
comparator on strings. -/
def localeCompare (x y : String) : Int := charsCmp x.data y.data

/-- The JavaScript coercion (s.category || "") used inside the category
comparator of filterSummaries. -/
def catStr (s : Summary) : String := s.category.getD ""

/-- Comparator of the chronological view: new Date(b.created_at) - new Date(a.created_at). -/
def chronoCmp (a b : Summary) : Int := (b.created_at : Int) - (a.created_at : Int)

/-- Comparator of the category view of filterSummaries. -/
def categoryCmp (a b : Summary) : Int :=
  if a.category = b.category then chronoCmp a b
  else localeCompare (catStr a) (catStr b)

/-- Stable insertion used to embed Array.prototype.sort: the inserted element
is placed before the first element that does not compare strictly smaller,
keeping earlier elements first on ties. -/
def insertCmp (cmp : Summary → Summary → Int) (x : Summary) : List Summary → List Summary
  | [] => [x]
  | y :: ys => if cmp x y ≤ 0 then x :: y :: ys else y :: insertCmp cmp x ys

/-- Stable sort with a JavaScript style comparator, the embedding of
Array.prototype.sort. -/
def sortCmp (cmp : Summary → Summary → Int) : List Summary → List Summary
  | [] => []
  | x :: xs => insertCmp cmp x (sortCmp cmp xs)

/-- First filter step of filterSummaries: keep summaries whose category equals
the selected one, skipped when selectedCategory is "all". -/
def filterByCategory (summaries : List Summary) (selectedCategory : String) : List Summary :=
  if selectedCategory ≠ "all" then
    summaries.filter (fun s => decide (s.category = some selectedCategory))
  else summaries

/-- Second filter step of filterSummaries: keep summaries whose tags list
exists and contains the selected tag, skipped when selectedTag is "all". -/
def filterByTag (summaries : List Summary) (selectedTag : String) : List Summary :=
  if selectedTag ≠ "all" then
    summaries.filter (fun s =>
      match s.tags with
      | some ts => ts.contains selectedTag
      | none => false)
  else summaries

/-- The two filter steps of filterSummaries, in source order. -/
def applyFilters (summaries : List Summary) (selectedCategory selectedTag : String) :
    List Summary :=
  filterByTag (filterByCategory summaries selectedCategory) selectedTag

/-- filterSummaries from the Summaries component: filter by the selected
category and tag, then sort with the comparator of the selected view. -/
def filterSummaries (summaries : List Summary) (selectedCategory selectedTag view : String) :
    List Summary :=
  if view = "category" then sortCmp categoryCmp (applyFilters summaries selectedCategory selectedTag)
  else sortCmp chronoCmp (applyFilters summaries selectedCategory selectedTag)

/-- toggleSummarySelection from the Summaries component: remove the id from the
selection when present, append it otherwise. -/
def toggleSummarySelection (prev : List Nat) (id : Nat) : List Nat :=
  if prev.contains id then prev.filter (fun s => s != id) else prev ++ [id]

/-- The isAutomatic classification of a rendered summary card:
summary.source_id !== null && summary.source_id !== undefined. -/
def isAutomatic (s : Summary) : Bool := s.source_id.isSome

/-- Badges rendered in the header of a summary card, in render order. -/
def summaryBadges (s : Summary) : List String :=
  (if s.is_new then ["Nouveau"] else []) ++
    (if isAutomatic s then ["🤖 Veille auto"] else []) ++
      (if !(isAutomatic s) then ["✋ Manuel"] else [])

/-- The comparator charsCmp is antisymmetric under argument swap. -/
theorem charsCmp_swap (x y : List Char) : charsCmp y x = - charsCmp x y := by
  induction x generalizing y with
  | nil => cases y <;> simp [charsCmp]
  | cons a as ih =>
    cases y with
    | nil => simp [charsCmp]
    | cons b bs =>
      by_cases hab : a < b
      · have hba : ¬ b < a := lt_asymm hab
        simp [charsCmp, hab, hba]
      · by_cases hba : b < a
        · simp [charsCmp, hab, hba]
        · simp [charsCmp, hab, hba, ih bs]

/-- The comparator charsCmp vanishes exactly on equal lists. -/
theorem charsCmp_eq_zero (x y : List Char) : charsCmp x y = 0 ↔ x = y := by
  induction x generalizing y with
  | nil => cases y <;> simp [charsCmp]
  | cons a as ih =>
    cases y with
    | nil => simp [charsCmp]
    | cons b bs =>
      by_cases hab : a < b
      · simp [charsCmp, hab, ne_of_lt hab]
      · by_cases hba : b < a
        · simp [charsCmp, hab, hba, (ne_of_lt hba).symm]
        · have hab' : a = b := le_antisymm (not_lt.mp hba) (not_lt.mp hab)
          simp [charsCmp, hab, hba, hab', ih bs]

/-- Transitivity of the nonpositive half of charsCmp. -/
theorem charsCmp_trans_le {x y z : List Char}
    (hxy : charsCmp x y ≤ 0) (hyz : charsCmp y z ≤ 0) : charsCmp x z ≤ 0 := by
  induction x generalizing y z with
  | nil => cases z <;> simp [charsCmp]
  | cons a as ih =>
    cases y with
    | nil => simp [charsCmp] at hxy
    | cons b bs =>
      cases z with
      | nil => simp [charsCmp] at hyz
      | cons c cs =>
        by_cases hab : a < b
        · by_cases hbc : b < c
          · simp [charsCmp, lt_trans hab hbc]
          · by_cases hcb : c < b
            · simp [charsCmp, hbc, hcb] at hyz
            · have hbc' : b = c := le_antisymm (not_lt.mp hcb) (not_lt.mp hbc)
              simp [charsCmp, hbc' ▸ hab]
        · by_cases hba : b < a
          · simp [charsCmp, hab, hba] at hxy
          · have hab' : a = b := le_antisymm (not_lt.mp hba) (not_lt.mp hab)
            subst hab'
            simp only [charsCmp, lt_irrefl, if_false] at hxy
            by_cases hac : a < c
            · simp [charsCmp, hac]
            · by_cases hca : c < a
              · simp [charsCmp, hac, hca] at hyz
              · have hac' : a = c := le_antisymm (not_lt.mp hca) (not_lt.mp hac)
                subst hac'
                simp only [charsCmp, lt_irrefl, if_false] at hyz ⊢
                exact ih hxy hyz

/-- localeCompare is antisymmetric under argument swap. -/
theorem localeCompare_swap (x y : String) : localeCompare y x = - localeCompare x y :=
  charsCmp_swap x.data y.data

/-- localeCompare vanishes exactly on equal strings. -/
theorem localeCompare_eq_zero (x y : String) : localeCompare x y = 0 ↔ x = y := by
  cases x with
  | mk dx =>
    cases y with
    | mk dy =>
      refine ⟨fun h => ?_, fun h => ?_⟩
      · exact congrArg String.mk ((charsCmp_eq_zero dx dy).mp h)
      · cases h
        exact (charsCmp_eq_zero dx dx).mpr rfl

/-- Transitivity of the nonpositive half of localeCompare. -/
theorem localeCompare_trans {x y z : String}
    (hxy : localeCompare x y ≤ 0) (hyz : localeCompare y z ≤ 0) :
    localeCompare x z ≤ 0 :=
  charsCmp_trans_le hxy hyz

/-- Totality of localeCompare: a strictly positive comparison flips. -/
theorem localeCompare_flip {x y : String} (h : ¬ localeCompare x y ≤ 0) :
    localeCompare y x ≤ 0 := by
  rw [localeCompare_swap]; omega

/-- Antisymmetry of localeCompare. -/
theorem localeCompare_antisymm {x y : String}
    (hxy : localeCompare x y ≤ 0) (hyx : localeCompare y x ≤ 0) : x = y := by
  rw [localeCompare_swap] at hyx
  exact (localeCompare_eq_zero x y).mp (by omega)

/-- Membership in a stable insertion. -/
theorem mem_insertCmp {cmp : Summary → Summary → Int} {x z : Summary} {l : List Summary} :
    z ∈ insertCmp cmp x l ↔ z = x ∨ z ∈ l := by
  induction l with
  | nil => simp [insertCmp]
  | cons y ys ih =>
    by_cases h : cmp x y ≤ 0
    · simp [insertCmp, h]
    · simp only [insertCmp, if_neg h, List.mem_cons, ih]
      tauto

/-- A stable insertion permutes the element onto the list. -/
theorem perm_insertCmp (cmp : Summary → Summary → Int) (x : Summary) (l : List Summary) :
    (insertCmp cmp x l).Perm (x :: l) := by
  induction l with
  | nil => simp [insertCmp]
  | cons y ys ih =>
    by_cases h : cmp x y ≤ 0
    · simp [insertCmp, h]
    · simp only [insertCmp, if_neg h]
      exact (ih.cons y).trans (List.Perm.swap x y ys)

/-- The embedded Array.prototype.sort permutes its input. -/
theorem perm_sortCmp (cmp : Summary → Summary → Int) (l : List Summary) :
    (sortCmp cmp l).Perm l := by
  induction l with
  | nil => simp [sortCmp]
  | cons x xs ih => exact (perm_insertCmp cmp x (sortCmp cmp xs)).trans (ih.cons x)

/-- Pairwise order invariant of a stable insertion, for a relation r that is
transitive on elements satisfying P and induced by the sign of the comparator. -/
theorem pairwise_insertCmp {cmp : Summary → Summary → Int}
    {r : Summary → Summary → Prop} {P : Summary → Prop}
    (htr : ∀ a b c, P a → P b → P c → r a b → r b c → r a c)
    (h1 : ∀ a b, P a → P b → cmp a b ≤ 0 → r a b)
    (h2 : ∀ a b, P a → P b → ¬ cmp a b ≤ 0 → r b a)
    {x : Summary} {l : List Summary} (hx : P x) (hl : ∀ y ∈ l, P y)
    (hp : l.Pairwise r) : (insertCmp cmp x l).Pairwise r := by
  induction l with
  | nil => simp [insertCmp]
  | cons y ys ih =>
    have hy : P y := hl y (List.mem_cons_self y ys)
    have hys : ∀ z ∈ ys, P z := fun z hz => hl z (List.mem_cons_of_mem y hz)
    rw [List.pairwise_cons] at hp
    by_cases hc : cmp x y ≤ 0
    · simp only [insertCmp, if_pos hc]
      refine List.Pairwise.cons ?_ (List.Pairwise.cons hp.1 hp.2)
      intro z hz
      rcases List.mem_cons.mp hz with rfl | hz'
      · exact h1 x z hx hy hc
      · exact htr x y z hx hy (hys z hz') (h1 x y hx hy hc) (hp.1 z hz')
    · simp only [insertCmp, if_neg hc]
      refine List.Pairwise.cons ?_ (ih hys hp.2)
      intro z hz
      rcases mem_insertCmp.mp hz with hzx | hz'
      · subst hzx
        exact h2 _ _ hx hy hc
      · exact hp.1 z hz'

/-- Pairwise order invariant of the embedded sort. -/
theorem pairwise_sortCmp {cmp : Summary → Summary → Int}
    {r : Summary → Summary → Prop} {P : Summary → Prop}
    (htr : ∀ a b c, P a → P b → P c → r a b → r b c → r a c)
    (h1 : ∀ a b, P a → P b → cmp a b ≤ 0 → r a b)
    (h2 : ∀ a b, P a → P b → ¬ cmp a b ≤ 0 → r b a)
    {l : List Summary} (hl : ∀ y ∈ l, P y) : (sortCmp cmp l).Pairwise r := by
  induction l with
  | nil => simp [sortCmp]
  | cons x xs ih =>
    have hxs : ∀ y ∈ xs, P y := fun y hy => hl y (List.mem_cons_of_mem x hy)
    have hmem : ∀ y ∈ sortCmp cmp xs, P y :=
      fun y hy => hxs y ((perm_sortCmp cmp xs).mem_iff.mp hy)
    exact pairwise_insertCmp htr h1 h2 (hl x (List.mem_cons_self x xs)) hmem (ih hxs)

/-- The coercion (category || "") is injective on categories other than the
present-but-empty string. -/
theorem getD_empty_inj {oa ob : Option String} (ha : oa ≠ some "") (hb : ob ≠ some "")
    (h : oa.getD "" = ob.getD "") : oa = ob := by
  cases oa with
  | none =>
    cases ob with
    | none => rfl
    | some t =>
      simp only [Option.getD_none, Option.getD_some] at h
      subst h
      exact absurd rfl hb
  | some s =>
    cases ob with
    | none =>
      simp only [Option.getD_some, Option.getD_none] at h
      subst h
      exact absurd rfl ha
    | some t =>
      simp only [Option.getD_some] at h
      rw [h]

/-- A nonpositive category comparison yields the category-then-recency relation. -/
theorem categoryCmp_le {a b : Summary} (h : categoryCmp a b ≤ 0) :
    localeCompare (catStr a) (catStr b) ≤ 0 ∧
      (a.category = b.category → b.created_at ≤ a.created_at) := by
  unfold categoryCmp at h
  by_cases hc : a.category = b.category
  · rw [if_pos hc] at h
    refine ⟨?_, fun _ => ?_⟩
    · have hcs : catStr a = catStr b := by unfold catStr; rw [hc]
      rw [hcs]
      exact le_of_eq ((localeCompare_eq_zero _ _).mpr rfl)
    · unfold chronoCmp at h; omega
  · rw [if_neg hc] at h
    exact ⟨h, fun hcc => absurd hcc hc⟩

/-- A positive category comparison yields the flipped relation. -/
theorem categoryCmp_gt {a b : Summary} (h : ¬ categoryCmp a b ≤ 0) :
    localeCompare (catStr b) (catStr a) ≤ 0 ∧
      (b.category = a.category → a.created_at ≤ b.created_at) := by
  unfold categoryCmp at h
  by_cases hc : a.category = b.category
  · rw [if_pos hc] at h
    unfold chronoCmp at h
    refine ⟨?_, fun _ => by omega⟩
    have hcs : catStr b = catStr a := by unfold catStr; rw [hc]
    rw [hcs]
    exact le_of_eq ((localeCompare_eq_zero _ _).mpr rfl)
  · rw [if_neg hc] at h
    exact ⟨localeCompare_flip h, fun hcc => absurd hcc.symm hc⟩

/-- The category-then-recency relation is transitive on summaries without a
present-but-empty category. -/
theorem categoryRel_trans {a b c : Summary}
    (ha : a.category ≠ some "") (hb : b.category ≠ some "") (_hcP : c.category ≠ some "")
    (h1 : localeCompare (catStr a) (catStr b) ≤ 0 ∧
      (a.category = b.category → b.created_at ≤ a.created_at))
    (h2 : localeCompare (catStr b) (catStr c) ≤ 0 ∧
      (b.category = c.category → c.created_at ≤ b.created_at)) :
    localeCompare (catStr a) (catStr c) ≤ 0 ∧
      (a.category = c.category → c.created_at ≤ a.created_at) := by
  refine ⟨localeCompare_trans h1.1 h2.1, fun hac => ?_⟩
  by_cases hab : a.category = b.category
  · exact le_trans (h2.2 (hab.symm.trans hac)) (h1.2 hab)
  · exfalso
    have hke : catStr a = catStr c := by unfold catStr; rw [hac]
    have l2 : localeCompare (catStr b) (catStr a) ≤ 0 := by rw [hke]; exact h2.1
    have heq : catStr a = catStr b := localeCompare_antisymm h1.1 l2
    exact hab (getD_empty_inj ha hb heq)

/-- Filtering never invents summaries: the filtered list sits inside the input. -/
theorem applyFilters_subset {summaries : List Summary} {selC selT : String} {s : Summary}
    (h : s ∈ applyFilters summaries selC selT) : s ∈ summaries := by
  unfold applyFilters at h
  have h1 : s ∈ filterByCategory summaries selC := by
    unfold filterByTag at h
    split at h
    · exact (List.mem_filter.mp h).1
    · exact h
  unfold filterByCategory at h1
  split at h1
  · exact (List.mem_filter.mp h1).1
  · exact h1

/-- C1 (amended): filterSummaries orders its output by the selected view —
chronological view sorted by created_at descending; category view sorted by
category ascending (a missing category compared as the empty string) with
equal categories ordered by created_at descending — provided no summary
carries a present-but-empty category. -/
theorem filterSummaries_sorted (summaries : List Summary) (selectedCategory selectedTag : String)
    (hcat : ∀ s ∈ summaries, s.category ≠ some "") :
    (filterSummaries summaries selectedCategory selectedTag "chronological").Pairwise
      (fun a b => b.created_at ≤ a.created_at) ∧
    (filterSummaries summaries selectedCategory selectedTag "category").Pairwise
      (fun a b => localeCompare (catStr a) (catStr b) ≤ 0 ∧
        (a.category = b.category → b.created_at ≤ a.created_at)) := by
  constructor
  · have hne : ¬ ("chronological" : String) = "category" := by decide
    unfold filterSummaries
    rw [if_neg hne]
    refine pairwise_sortCmp (P := fun _ => True) ?_ ?_ ?_ (fun y _ => trivial)
    · intro a b c _ _ _ hab hbc
      exact le_trans hbc hab
    · intro a b _ _ h
      unfold chronoCmp at h; omega
    · intro a b _ _ h
      unfold chronoCmp at h; omega
  · unfold filterSummaries
    rw [if_pos rfl]
    refine pairwise_sortCmp (P := fun s => s.category ≠ some "") ?_ ?_ ?_
      (fun y hy => hcat y (applyFilters_subset hy))
    · intro a b c hpa hpb hpc hab hbc
      exact categoryRel_trans hpa hpb hpc hab hbc
    · intro a b _ _ h
      exact categoryCmp_le h
    · intro a b _ _ h
      exact categoryCmp_gt h

/-- A concrete list of summaries with no present-but-empty category. -/
def c1WitnessList : List Summary :=
  [{ id := 1, title := "a", summary := "", source_name := "", source_id := none,
     category := some "b", tags := none, created_at := 3, is_new := false },
   { id := 2, title := "c", summary := "", source_name := "", source_id := some 1,
     category := none, tags := some ["x"], created_at := 7, is_new := true }]

/-- Witness for C1 (amended) at a concrete list of summaries. -/
theorem filterSummaries_sorted_witness :
    (filterSummaries c1WitnessList "all" "all" "chronological").Pairwise
      (fun a b => b.created_at ≤ a.created_at) ∧
    (filterSummaries c1WitnessList "all" "all" "category").Pairwise
      (fun a b => localeCompare (catStr a) (catStr b) ≤ 0 ∧
        (a.category = b.category → b.created_at ≤ a.created_at)) :=
  filterSummaries_sorted c1WitnessList "all" "all" (by decide)

/-- A summary with a present-but-empty category and the oldest timestamp. -/
def c1CexA : Summary :=
  { id := 1, title := "", summary := "", source_name := "", source_id := none,
    category := some "", tags := none, created_at := 0, is_new := false }

/-- A summary with a missing category and an intermediate timestamp. -/
def c1CexB : Summary :=
  { id := 2, title := "", summary := "", source_name := "", source_id := none,
    category := none, tags := none, created_at := 5, is_new := false }

/-- A summary with a present-but-empty category and the newest timestamp. -/
def c1CexC : Summary :=
  { id := 3, title := "", summary := "", source_name := "", source_id := none,
    category := some "", tags := none, created_at := 10, is_new := false }

/-- Counterexample to C1 as stated: in the category view the output keeps
c1CexA before c1CexC although the two carry equal categories and c1CexA is
strictly older, because the comparator ties the present-but-empty category
with the missing one of c1CexB instead of comparing by recency. -/
theorem filterSummaries_c1_counterexample :
    filterSummaries [c1CexA, c1CexB, c1CexC] "all" "all" "category" =
      [c1CexA, c1CexB, c1CexC] ∧
    c1CexA.category = c1CexC.category ∧
    c1CexA.created_at < c1CexC.created_at := by decide

/-- The filter predicate stated by the specification: a summary is kept when
the category filter is off or matches, and the tag filter is off or the tags
list exists and contains the selected tag. -/
def passFilters (selectedCategory selectedTag : String) (s : Summary) : Bool :=
  (decide (selectedCategory = "all") || decide (s.category = some selectedCategory)) &&
    (decide (selectedTag = "all") ||
      (match s.tags with
       | some ts => ts.contains selectedTag
       | none => false))

/-- The two filter steps of filterSummaries coincide with one pass of the
specification predicate. -/
theorem applyFilters_eq (summaries : List Summary) (selC selT : String) :
    applyFilters summaries selC selT = summaries.filter (passFilters selC selT) := by
  unfold applyFilters filterByTag filterByCategory passFilters
  by_cases hc : selC = "all" <;> by_cases ht : selT = "all" <;>
    simp [hc, ht, List.filter_filter, Bool.and_comm]

/-- C2: filterSummaries keeps exactly the summaries passing both the category
and the tag filter, in particular no summary outside the input appears. -/
theorem filterSummaries_perm_filter (summaries : List Summary) (selC selT view : String) :
    (filterSummaries summaries selC selT view).Perm
      (summaries.filter (passFilters selC selT)) := by
  unfold filterSummaries
  split
  · rw [← applyFilters_eq summaries selC selT]
    exact perm_sortCmp _ _
  · rw [← applyFilters_eq summaries selC selT]
    exact perm_sortCmp _ _

/-- C6: a summary card shows the manual badge exactly when source_id is
missing, the automatic badge exactly when it is present, and never both. -/
theorem summaryBadges_classification (s : Summary) :
    ("✋ Manuel" ∈ summaryBadges s ↔ s.source_id = none) ∧
    ("🤖 Veille auto" ∈ summaryBadges s ↔ s.source_id ≠ none) ∧
    ¬ ("✋ Manuel" ∈ summaryBadges s ∧ "🤖 Veille auto" ∈ summaryBadges s) := by
  obtain ⟨id, title, summ, sn, sid, cat, tags, ca, isnew⟩ := s
  have h1 : ("✋ Manuel" : String) ≠ "Nouveau" := by decide
  have h2 : ("🤖 Veille auto" : String) ≠ "✋ Manuel" := by decide
  have h3 : ("🤖 Veille auto" : String) ≠ "Nouveau" := by decide
  cases sid <;> cases isnew <;>
    simp [summaryBadges, isAutomatic, h1, h2, h3, h2.symm]

/-- Counterexample to C8 as stated: on the duplicate-free selection [1, 2]
toggling the id 1 twice returns [2, 1], not the original list. -/
theorem toggleSummarySelection_c8_counterexample :
    ([1, 2] : List Nat).Nodup ∧
    toggleSummarySelection (toggleSummarySelection [1, 2] 1) 1 ≠ [1, 2] := by decide

/-- Filtering out an absent id does nothing. -/
theorem filter_ne_of_not_mem {l : List Nat} {id : Nat} (h : id ∉ l) :
    l.filter (fun s => s != id) = l :=
  List.filter_eq_self.mpr (fun a ha => bne_iff_ne.mpr (fun heq => h (heq ▸ ha)))

/-- Removing a present id from a duplicate-free selection and appending it
again permutes the selection. -/
theorem perm_filter_append {l : List Nat} {id : Nat} (hnd : l.Nodup) (hm : id ∈ l) :
    (l.filter (fun s => s != id) ++ [id]).Perm l := by
  induction l with
  | nil => cases hm
  | cons a t ih =>
    rcases List.mem_cons.mp hm with heq | hmt
    · subst heq
      have hnt : id ∉ t := (List.nodup_cons.mp hnd).1
      simp only [List.filter_cons, bne_self_eq_false, if_false,
        Bool.false_eq_true, reduceIte, filter_ne_of_not_mem hnt]
      exact List.perm_append_singleton id t
    · have hna : a ≠ id := by
        rintro rfl
        exact (List.nodup_cons.mp hnd).1 hmt
      simp only [List.filter_cons, bne_iff_ne.mpr hna, if_true, reduceIte]
      exact ((ih (List.nodup_cons.mp hnd).2 hmt).cons a)

/-- C8 (amended): toggleSummarySelection removes a present id, appends an
absent one and preserves distinctness; applying it twice restores the
selection up to permutation, and restores it exactly when the id was absent. -/
theorem toggleSummarySelection_spec (l : List Nat) (id : Nat) (hnd : l.Nodup) :
    (id ∈ l → toggleSummarySelection l id = l.filter (fun s => s != id)) ∧
    (id ∉ l → toggleSummarySelection l id = l ++ [id]) ∧
    (toggleSummarySelection l id).Nodup ∧
    (toggleSummarySelection (toggleSummarySelection l id) id).Perm l ∧
    (id ∉ l → toggleSummarySelection (toggleSummarySelection l id) id = l) := by
  by_cases hm : id ∈ l
  · have hc : l.contains id = true := List.elem_iff.mpr hm
    have hstep : toggleSummarySelection l id = l.filter (fun s => s != id) := by
      unfold toggleSummarySelection
      rw [if_pos hc]
    have hnot : id ∉ l.filter (fun s => s != id) := by
      intro hmem
      have := (List.mem_filter.mp hmem).2
      simp at this
    have hc2 : ¬ ((l.filter (fun s => s != id)).contains id = true) :=
      fun h => hnot (List.elem_iff.mp h)
    have hstep2 : toggleSummarySelection (l.filter (fun s => s != id)) id =
        l.filter (fun s => s != id) ++ [id] := by
      unfold toggleSummarySelection
      rw [if_neg hc2]
    refine ⟨fun _ => hstep, fun h => absurd hm h, ?_, ?_, fun h => absurd hm h⟩
    · rw [hstep]
      exact List.Nodup.filter _ hnd
    · rw [hstep, hstep2]
      exact perm_filter_append hnd hm
  · have hc : ¬ (l.contains id = true) := fun h => hm (List.elem_iff.mp h)
    have hstep : toggleSummarySelection l id = l ++ [id] := by
      unfold toggleSummarySelection
      rw [if_neg hc]
    have hc2 : (l ++ [id]).contains id = true :=
      List.elem_iff.mpr (List.mem_append_right l (List.mem_singleton_self id))
    have hstep2 : toggleSummarySelection (l ++ [id]) id = l := by
      unfold toggleSummarySelection
      rw [if_pos hc2, List.filter_append, filter_ne_of_not_mem hm]
      simp
    refine ⟨fun h => absurd h hm, fun _ => hstep, ?_, ?_, fun _ => by rw [hstep, hstep2]⟩
    · rw [hstep]
      simp [List.nodup_append, hnd, hm]
    · rw [hstep, hstep2]

/-- Witness for C8 (amended) at the concrete selection [1, 2] and absent id 3. -/
theorem toggleSummarySelection_spec_witness :
    toggleSummarySelection [1, 2] 3 = [1, 2, 3] ∧
    (toggleSummarySelection (toggleSummarySelection [1, 2] 3) 3).Perm [1, 2] :=
  ⟨(toggleSummarySelection_spec [1, 2] 3 (by decide)).2.1 (by decide),
    (toggleSummarySelection_spec [1, 2] 3 (by decide)).2.2.2.1⟩

/-- Removal of leading and trailing whitespace from a character list, the
embedding of String.prototype.trim. -/
def trimChars (l : List Char) : List Char :=
  ((l.dropWhile Char.isWhitespace).reverse.dropWhile Char.isWhitespace).reverse

/-- Embedding of String.prototype.trim. -/
def jsTrim (s : String) : String := String.mk (trimChars s.data)

/-- Split of a character list on the comma character, the embedding of
String.prototype.split with separator ",". -/
def splitCommaChars : List Char → List (List Char)
  | [] => [[]]
  | c :: cs =>
    if c = ',' then [] :: splitCommaChars cs
    else
      match splitCommaChars cs with
      | [] => [[c]]
      | g :: gs => (c :: g) :: gs

/-- Embedding of String.prototype.split with separator ",". -/
def jsSplitComma (s : String) : List String := (splitCommaChars s.data).map String.mk

/-- Join of character lists with the separator ", ", the embedding of
Array.prototype.join with separator ", ". -/
def joinCommaSpaceChars : List (List Char) → List Char
  | [] => []
  | [l] => l
  | l :: l2 :: ls => l ++ ',' :: ' ' :: joinCommaSpaceChars (l2 :: ls)

/-- Embedding of Array.prototype.join with separator ", ". -/
def joinCommaSpace (ts : List String) : String :=
  String.mk (joinCommaSpaceChars (ts.map String.data))

/-- A source as deserialized from the backend. -/
structure Source where
  id : Nat
  name : String
  url : String
  category : Option String
  tags : List String
  active : Bool
  last_checked : Option Nat
  deriving Repr, DecidableEq

/-- The formData fields of the Sources dialog, all plain input strings. -/
structure SourceForm where
  name : String
  url : String
  category : String
  tags : String
  deriving Repr, DecidableEq

/-- The JSON body sent to POST /api/sources and PUT /api/sources/:id. -/
structure SourcePayload where
  name : String
  url : String
  category : Option String
  tags : List String
  deriving Repr, DecidableEq

/-- The JSON body sent to POST /api/articles by handleCompileArticle. -/
structure CompilePayload where
  title : String
  theme : String
  summary_ids : List Nat
  deriving Repr, DecidableEq

/-- The HTTP requests the client can issue, with their payloads. -/
inductive ApiRequest
  | getStats
  | getSources
  | postSources (payload : SourcePayload)
  | putSources (id : Nat) (payload : SourcePayload)
  | deleteSources (id : Nat)
  | toggleSources (id : Nat)
  | getSummaries
  | getCategories
  | getTags
  | getSummary (id : Nat)
  | markRead (id : Nat)
  | deleteSummaries (id : Nat)
  | getArticles
  | getArticle (id : Nat)
  | postArticles (payload : CompilePayload)
  | deleteArticles (id : Nat)
  | processUrl (url : String) (save : Bool)
  deriving Repr, DecidableEq

/-- The payload handleSubmit builds from the dialog formData: category is null
when the field is empty, tags is the comma-split and trimmed tags field, the
empty list when that field is blank. -/
def sourcePayloadOfForm (f : SourceForm) : SourcePayload :=
  { name := f.name
    url := f.url
    category := if f.category = "" then none else some f.category
    tags := if f.tags = "" then [] else (jsSplitComma f.tags).map jsTrim }

/-- The formData handleEdit installs when opening the edit dialog on a source. -/
def handleEditForm (source : Source) : SourceForm :=
  { name := source.name
    url := source.url
    category := source.category.getD ""
    tags := joinCommaSpace source.tags }

/-- View state of the Sources component. -/
structure SourcesState where
  sources : List Source
  dialogOpen : Bool
  editingSource : Option Source
  formData : SourceForm
  deriving Repr, DecidableEq

/-- The blank source form. -/
def emptySourceForm : SourceForm := { name := "", url := "", category := "", tags := "" }

/-- fetchSources of the Sources component: issue GET /api/sources; install the
response on success, toast an error and keep the list on failure. -/
def fetchSources (st : SourcesState) (resp : Except Unit (List Source)) :
    List ApiRequest × List ToastKind × SourcesState :=
  match resp with
  | .ok data => ([.getSources], [], { st with sources := data })
  | .error _ => ([.getSources], [.error], st)

/-- handleSubmit of the Sources component: PUT when a source is being edited,
POST otherwise; on success close the dialog, reset the form and refetch the
sources; on failure toast an error and change nothing. -/
def handleSubmit (st : SourcesState) (mutResp : Except Unit Unit)
    (refetchResp : Except Unit (List Source)) :
    List ApiRequest × List ToastKind × SourcesState :=
  let payload := sourcePayloadOfForm st.formData
  let mutReq : ApiRequest :=
    match st.editingSource with
    | some src => .putSources src.id payload
    | none => .postSources payload
  match mutResp with
  | .error _ => ([mutReq], [.error], st)
  | .ok _ =>
    let st1 : SourcesState :=
      { st with dialogOpen := false, formData := emptySourceForm, editingSource := none }
    let fetched := fetchSources st1 refetchResp
    (mutReq :: fetched.1, .success :: fetched.2.1, fetched.2.2)

/-- handleEdit of the Sources component: select the source for editing,
prefill the form from it and open the dialog. -/
def handleEdit (st : SourcesState) (source : Source) : SourcesState :=
  { st with editingSource := some source, formData := handleEditForm source, dialogOpen := true }

/-- handleDelete of the Sources component, guarded by window.confirm. -/
def handleDelete (st : SourcesState) (id : Nat) (confirmed : Bool)
    (mutResp : Except Unit Unit) (refetchResp : Except Unit (List Source)) :
    List ApiRequest × List ToastKind × SourcesState :=
  if confirmed then
    match mutResp with
    | .error _ => ([.deleteSources id], [.error], st)
    | .ok _ =>
      let fetched := fetchSources st refetchResp
      (.deleteSources id :: fetched.1, .success :: fetched.2.1, fetched.2.2)
  else ([], [], st)

/-- handleToggle of the Sources component. -/
def handleToggle (st : SourcesState) (id : Nat) (mutResp : Except Unit Unit)
    (refetchResp : Except Unit (List Source)) :
    List ApiRequest × List ToastKind × SourcesState :=
  match mutResp with
  | .error _ => ([.toggleSources id], [.error], st)
  | .ok _ =>
    let fetched := fetchSources st refetchResp
    (.toggleSources id :: fetched.1, .success :: fetched.2.1, fetched.2.2)

/-- The articleFormData of the compile dialog. -/
structure ArticleForm where
  title : String
  theme : String
  deriving Repr, DecidableEq

/-- The blank article form. -/
def emptyArticleForm : ArticleForm := { title := "", theme := "" }

/-- View state of the Summaries component. -/
structure SummariesState where
  summaries : List Summary
  categories : List String
  tags : List String
  selectedForArticle : List Nat
  compilingArticle : Bool
  showCompileDialog : Bool
  articleFormData : ArticleForm
  deriving Repr, DecidableEq

/-- The three responses awaited together by fetchData of the Summaries
component. -/
structure SummariesData where
  summaries : List Summary
  categories : List String
  tags : List String
  deriving Repr, DecidableEq

/-- fetchData of the Summaries component: GET summaries, categories and tags
together; install all three on success, toast an error and keep the previous
state when the combined promise rejects. -/
def summariesFetchData (st : SummariesState) (resp : Except Unit SummariesData) :
    List ApiRequest × List ToastKind × SummariesState :=
  match resp with
  | .ok d => ([.getSummaries, .getCategories, .getTags], [],
      { st with summaries := d.summaries, categories := d.categories, tags := d.tags })
  | .error _ => ([.getSummaries, .getCategories, .getTags], [.error], st)

/-- The delete button of a summary card, guarded by window.confirm: DELETE the
summary, then refetch on success. -/
def deleteSummaryClick (st : SummariesState) (id : Nat) (confirmed : Bool)
    (mutResp : Except Unit Unit) (refetchResp : Except Unit SummariesData) :
    List ApiRequest × List ToastKind × SummariesState :=
  if confirmed then
    match mutResp with
    | .error _ => ([.deleteSummaries id], [.error], st)
    | .ok _ =>
      let fetched := summariesFetchData st refetchResp
      (.deleteSummaries id :: fetched.1, .success :: fetched.2.1, fetched.2.2)
  else ([], [], st)

/-- handleCompileArticle of the Summaries component: refuse with an error toast
and no request when fewer than 2 summaries are selected; otherwise POST the
article payload, and on success close the dialog, reset the form and clear the
selection. -/
def handleCompileArticle (st : SummariesState) (resp : Except Unit Nat) :
    List ApiRequest × List ToastKind × SummariesState :=
  if st.selectedForArticle.length < 2 then ([], [.error], st)
  else
    let payload : CompilePayload :=
      { title := st.articleFormData.title
        theme := st.articleFormData.theme
        summary_ids := st.selectedForArticle }
    match resp with
    | .ok _ => ([.postArticles payload], [.success],
        { st with
          showCompileDialog := false
          articleFormData := emptyArticleForm
          selectedForArticle := []
          compilingArticle := false })
    | .error _ => ([.postArticles payload], [.error], { st with compilingArticle := false })

/-- fetchSummary of the SummaryDetail component: GET the summary; on success
install it and POST mark-read exactly when it is new; on failure toast an
error and keep the previous detail state. -/
def fetchSummary (id : Nat) (st : Option Summary) (getResp : Except Unit Summary)
    (markResp : Except Unit Unit) : List ApiRequest × List ToastKind × Option Summary :=
  match getResp with
  | .error _ => ([.getSummary id], [.error], st)
  | .ok s =>
    if s.is_new then
      match markResp with
      | .ok _ => ([.getSummary id, .markRead id], [], some s)
      | .error _ => ([.getSummary id, .markRead id], [.error], some s)
    else ([.getSummary id], [], some s)

/-- The response of POST /api/process-url. -/
structure ProcessResult where
  title : String
  url : String
  summary : String
  deriving Repr, DecidableEq

/-- View state of the SingleUrl component. -/
structure SingleUrlState where
  url : String
  result : Option ProcessResult
  loading : Bool
  saveOption : Bool
  deriving Repr, DecidableEq

/-- handleSubmit of the SingleUrl component: clear the previous result, POST
the url with the save flag, then install the result or toast an error. -/
def singleUrlSubmit (st : SingleUrlState) (resp : Except Unit ProcessResult) :
    List ApiRequest × List ToastKind × SingleUrlState :=
  match resp with
  | .ok r => ([.processUrl st.url st.saveOption], [.success],
      { st with result := some r, loading := false })
  | .error _ => ([.processUrl st.url st.saveOption], [.error],
      { st with result := none, loading := false })

/-- An article as deserialized from the backend. -/
structure Article where
  id : Nat
  title : String
  theme : String
  content : String
  tags : List String
  sources : List String
  created_at : Nat
  deriving Repr, DecidableEq

/-- View state of the Articles component. -/
structure ArticlesState where
  articles : List Article
  deriving Repr, DecidableEq

/-- fetchData of the Articles component. -/
def articlesFetchData (st : ArticlesState) (resp : Except Unit (List Article)) :
    List ApiRequest × List ToastKind × ArticlesState :=
  match resp with
  | .ok d => ([.getArticles], [], { st with articles := d })
  | .error _ => ([.getArticles], [.error], st)

/-- The delete button of an article card, guarded by window.confirm. -/
def deleteArticleClick (st : ArticlesState) (id : Nat) (confirmed : Bool)
    (mutResp : Except Unit Unit) (refetchResp : Except Unit (List Article)) :
    List ApiRequest × List ToastKind × ArticlesState :=
  if confirmed then
    match mutResp with
    | .error _ => ([.deleteArticles id], [.error], st)
    | .ok _ =>
      let fetched := articlesFetchData st refetchResp
      (.deleteArticles id :: fetched.1, .success :: fetched.2.1, fetched.2.2)
  else ([], [], st)

/-- fetchArticle of the ArticleDetail component. -/
def fetchArticle (id : Nat) (st : Option Article) (resp : Except Unit Article) :
    List ApiRequest × List ToastKind × Option Article :=
  match resp with
  | .ok a => ([.getArticle id], [], some a)
  | .error _ => ([.getArticle id], [.error], st)

/-- The statistics shown on the dashboard. -/
structure Stats where
  total_sources : Nat
  active_sources : Nat
  total_summaries : Nat
  new_summaries : Nat
  total_articles : Nat
  deriving Repr, DecidableEq

/-- View state of the Dashboard component. -/
structure DashboardState where
  stats : Option Stats
  recentSummaries : List Summary
  deriving Repr, DecidableEq

/-- fetchData of the Dashboard component: GET stats and recent summaries
together, keep the first six summaries. -/
def dashboardFetchData (st : DashboardState) (resp : Except Unit (Stats × List Summary)) :
    List ApiRequest × List ToastKind × DashboardState :=
  match resp with
  | .ok d => ([.getStats, .getSummaries], [],
      { stats := some d.1, recentSummaries := d.2.take 6 })
  | .error _ => ([.getStats, .getSummaries], [.error], st)

/-- C3: handleCompileArticle issues the POST /api/articles request carrying the
title, theme and selected summary ids exactly when at least two summaries are
selected; with fewer it issues no request, toasts an error and leaves the
selection, form and dialog state unchanged. -/
theorem handleCompileArticle_spec (st : SummariesState) (resp : Except Unit Nat) :
    ((handleCompileArticle st resp).1 =
        [ApiRequest.postArticles
          { title := st.articleFormData.title
            theme := st.articleFormData.theme
            summary_ids := st.selectedForArticle }] ↔
      2 ≤ st.selectedForArticle.length) ∧
    (st.selectedForArticle.length < 2 →
      (handleCompileArticle st resp).1 = [] ∧
      (handleCompileArticle st resp).2.1 = [ToastKind.error] ∧
      (handleCompileArticle st resp).2.2 = st) := by
  by_cases h : st.selectedForArticle.length < 2
  · constructor
    · constructor
      · intro hreq
        unfold handleCompileArticle at hreq
        rw [if_pos h] at hreq
        simp at hreq
      · intro h2
        omega
    · intro _
      unfold handleCompileArticle
      rw [if_pos h]
      exact ⟨rfl, rfl, rfl⟩
  · constructor
    · constructor
      · intro _
        omega
      · intro _
        unfold handleCompileArticle
        rw [if_neg h]
        cases resp <;> rfl
    · intro hlt
      exact absurd hlt h

/-- A Summaries state with two selected summaries and a filled compile form. -/
def c3StateA : SummariesState :=
  { summaries := []
    categories := []
    tags := []
    selectedForArticle := [4, 7]
    compilingArticle := false
    showCompileDialog := true
    articleFormData := { title := "T", theme := "Th" } }

/-- A Summaries state with a single selected summary. -/
def c3StateB : SummariesState :=
  { summaries := []
    categories := []
    tags := []
    selectedForArticle := [4]
    compilingArticle := false
    showCompileDialog := true
    articleFormData := { title := "T", theme := "Th" } }

/-- Witness for C3 at concrete states with two and with one selected summary. -/
theorem handleCompileArticle_spec_witness :
    (handleCompileArticle c3StateA (.ok 0)).1 =
      [ApiRequest.postArticles { title := "T", theme := "Th", summary_ids := [4, 7] }] ∧
    (handleCompileArticle c3StateB (.ok 0)).1 = [] ∧
    (handleCompileArticle c3StateB (.ok 0)).2.2 = c3StateB :=
  ⟨(handleCompileArticle_spec c3StateA (.ok 0)).1.mpr (by decide),
    ((handleCompileArticle_spec c3StateB (.ok 0)).2 (by decide)).1,
    ((handleCompileArticle_spec c3StateB (.ok 0)).2 (by decide)).2.2⟩

/-- C5: submitting the source form sends, as its first request, exactly the
payload built from the form — category null when the field is empty, tags the
comma-split and trimmed field or the empty list when blank — through PUT with
the edited source id when editing and through POST otherwise. -/
theorem handleSubmit_payload (st : SourcesState) (mutResp : Except Unit Unit)
    (refetchResp : Except Unit (List Source)) :
    (handleSubmit st mutResp refetchResp).1.head? = some
      (match st.editingSource with
       | some src => ApiRequest.putSources src.id
           { name := st.formData.name
             url := st.formData.url
             category := if st.formData.category = "" then none else some st.formData.category
             tags := if st.formData.tags = "" then []
               else (jsSplitComma st.formData.tags).map jsTrim }
       | none => ApiRequest.postSources
           { name := st.formData.name
             url := st.formData.url
             category := if st.formData.category = "" then none else some st.formData.category
             tags := if st.formData.tags = "" then []
               else (jsSplitComma st.formData.tags).map jsTrim }) := by
  cases he : st.editingSource <;> cases mutResp <;>
    simp [handleSubmit, sourcePayloadOfForm, he]

/-- C7: each successful mutation issues its refetch directly after the mutation
request — GET sources after a source create, update, delete or toggle, GET
summaries with categories and tags after a summary deletion, GET articles
after an article deletion — and the re-rendered list is the refetched one. -/
theorem refetch_after_mutation (st : SourcesState) (stS : SummariesState)
    (stA : ArticlesState) (id : Nat) (srcs : List Source) (sd : SummariesData)
    (arts : List Article) :
    ((handleSubmit st (.ok ()) (.ok srcs)).1 =
      [(match st.editingSource with
        | some src => ApiRequest.putSources src.id (sourcePayloadOfForm st.formData)
        | none => ApiRequest.postSources (sourcePayloadOfForm st.formData)),
       ApiRequest.getSources] ∧
     (handleSubmit st (.ok ()) (.ok srcs)).2.2.sources = srcs) ∧
    ((handleDelete st id true (.ok ()) (.ok srcs)).1 =
        [ApiRequest.deleteSources id, ApiRequest.getSources] ∧
     (handleDelete st id true (.ok ()) (.ok srcs)).2.2.sources = srcs) ∧
    ((handleToggle st id (.ok ()) (.ok srcs)).1 =
        [ApiRequest.toggleSources id, ApiRequest.getSources] ∧
     (handleToggle st id (.ok ()) (.ok srcs)).2.2.sources = srcs) ∧
    ((deleteSummaryClick stS id true (.ok ()) (.ok sd)).1 =
        [ApiRequest.deleteSummaries id, ApiRequest.getSummaries,
          ApiRequest.getCategories, ApiRequest.getTags] ∧
     (deleteSummaryClick stS id true (.ok ()) (.ok sd)).2.2.summaries = sd.summaries) ∧
    ((deleteArticleClick stA id true (.ok ()) (.ok arts)).1 =
        [ApiRequest.deleteArticles id, ApiRequest.getArticles] ∧
     (deleteArticleClick stA id true (.ok ()) (.ok arts)).2.2.articles = arts) :=
  ⟨⟨rfl, rfl⟩, ⟨rfl, rfl⟩, ⟨rfl, rfl⟩, ⟨rfl, rfl⟩, ⟨rfl, rfl⟩⟩

/-- C9: the summary detail view issues the mark-read mutation exactly when the
fetch succeeded and the fetched summary is new; a failed fetch issues only the
GET request. -/
theorem fetchSummary_markRead (id : Nat) (st : Option Summary)
    (getResp : Except Unit Summary) (markResp : Except Unit Unit) :
    (ApiRequest.markRead id ∈ (fetchSummary id st getResp markResp).1 ↔
      ∃ s, getResp = .ok s ∧ s.is_new = true) ∧
    (getResp = .error () →
      (fetchSummary id st getResp markResp).1 = [ApiRequest.getSummary id]) := by
  cases getResp with
  | error e =>
    constructor
    · simp [fetchSummary]
    · intro _
      rfl
  | ok s =>
    constructor
    · by_cases hn : s.is_new
      · cases markResp <;> simp [fetchSummary, hn]
      · simp [fetchSummary, hn]
    · intro h
      simp at h

/-- Witness for C9: a failed fetch issues only the GET request. -/
theorem fetchSummary_markRead_witness :
    (fetchSummary 1 none (Except.error ()) (Except.ok ())).1 = [ApiRequest.getSummary 1] :=
  (fetchSummary_markRead 1 none (Except.error ()) (Except.ok ())).2 rfl

/-- C4: every handler that issues an HTTP request reacts to a rejected request
by catching it into a single error toast, without retrying (each handler issues
at most the one failed request besides nothing else), and leaves the rendered
data — the sources, summaries and articles lists, the current selection and
the form contents — unchanged. -/
theorem failed_request_behavior
    (stSrc : SourcesState) (stSum : SummariesState) (stArt : ArticlesState)
    (stUrl : SingleUrlState) (stDash : DashboardState)
    (detail : Option Summary) (artDetail : Option Article) (id : Nat) :
    dashboardFetchData stDash (.error ()) =
      ([ApiRequest.getStats, ApiRequest.getSummaries], [ToastKind.error], stDash) ∧
    fetchSources stSrc (.error ()) = ([ApiRequest.getSources], [ToastKind.error], stSrc) ∧
    summariesFetchData stSum (.error ()) =
      ([ApiRequest.getSummaries, ApiRequest.getCategories, ApiRequest.getTags],
        [ToastKind.error], stSum) ∧
    articlesFetchData stArt (.error ()) =
      ([ApiRequest.getArticles], [ToastKind.error], stArt) ∧
    fetchSummary id detail (.error ()) (.ok ()) =
      ([ApiRequest.getSummary id], [ToastKind.error], detail) ∧
    fetchArticle id artDetail (.error ()) =
      ([ApiRequest.getArticle id], [ToastKind.error], artDetail) ∧
    ((handleSubmit stSrc (.error ()) (.ok [])).1.length = 1 ∧
      (handleSubmit stSrc (.error ()) (.ok [])).2.1 = [ToastKind.error] ∧
      (handleSubmit stSrc (.error ()) (.ok [])).2.2 = stSrc) ∧
    handleDelete stSrc id true (.error ()) (.ok []) =
      ([ApiRequest.deleteSources id], [ToastKind.error], stSrc) ∧
    handleToggle stSrc id (.error ()) (.ok []) =
      ([ApiRequest.toggleSources id], [ToastKind.error], stSrc) ∧
    deleteSummaryClick stSum id true (.error ()) (.ok { summaries := [], categories := [], tags := [] }) =
      ([ApiRequest.deleteSummaries id], [ToastKind.error], stSum) ∧
    deleteArticleClick stArt id true (.error ()) (.ok []) =
      ([ApiRequest.deleteArticles id], [ToastKind.error], stArt) ∧
    ((handleCompileArticle stSum (.error ())).1.length ≤ 1 ∧
      (handleCompileArticle stSum (.error ())).2.1 = [ToastKind.error] ∧
      (handleCompileArticle stSum (.error ())).2.2.summaries = stSum.summaries ∧
      (handleCompileArticle stSum (.error ())).2.2.selectedForArticle =
        stSum.selectedForArticle ∧
      (handleCompileArticle stSum (.error ())).2.2.articleFormData =
        stSum.articleFormData) ∧
    ((singleUrlSubmit stUrl (.error ())).1 =
        [ApiRequest.processUrl stUrl.url stUrl.saveOption] ∧
      (singleUrlSubmit stUrl (.error ())).2.1 = [ToastKind.error] ∧
      (singleUrlSubmit stUrl (.error ())).2.2.url = stUrl.url ∧
      (singleUrlSubmit stUrl (.error ())).2.2.saveOption = stUrl.saveOption) := by
  refine ⟨rfl, rfl, rfl, rfl, rfl, rfl, ⟨rfl, rfl, rfl⟩, rfl, rfl, rfl, rfl,
    ?_, ⟨rfl, rfl, rfl, rfl⟩⟩
  by_cases h : stSum.selectedForArticle.length < 2
  · unfold handleCompileArticle
    rw [if_pos h]
    exact ⟨by simp, rfl, rfl, rfl, rfl⟩
  · unfold handleCompileArticle
    rw [if_neg h]
    exact ⟨by simp, rfl, rfl, rfl, rfl⟩

/-- A string is its character data. -/
theorem string_mk_data (s : String) : String.mk s.data = s := by
  cases s
  rfl

/-- The character data of a packed string. -/
theorem data_string_mk (l : List Char) : (String.mk l).data = l := rfl

/-- The comma split never produces the empty group list. -/
theorem splitCommaChars_ne_nil (l : List Char) : splitCommaChars l ≠ [] := by
  cases l with
  | nil => simp [splitCommaChars]
  | cons c cs =>
    by_cases h : c = ','
    · simp [splitCommaChars, h]
    · simp only [splitCommaChars, if_neg h]
      cases hs : splitCommaChars cs <;> simp

/-- Splitting a comma-free character list yields the single group. -/
theorem splitCommaChars_no_comma {l : List Char} (h : ',' ∉ l) :
    splitCommaChars l = [l] := by
  induction l with
  | nil => rfl
  | cons c cs ih =>
    have hc : ¬ c = ',' := fun hc => h (List.mem_cons.mpr (Or.inl hc.symm))
    have hcs : ',' ∉ cs := fun hm => h (List.mem_cons_of_mem c hm)
    unfold splitCommaChars
    rw [if_neg hc, ih hcs]

/-- Splitting a list that starts with a comma-free run followed by a comma peels that run off as one group. -/
theorem splitCommaChars_append {l : List Char} (hl : ',' ∉ l) (r : List Char) :
    splitCommaChars (l ++ ',' :: r) = l :: splitCommaChars r := by
  induction l with
  | nil =>
    simp [splitCommaChars]
  | cons c cs ih =>
    have hc : ¬ c = ',' := fun hc => hl (List.mem_cons.mpr (Or.inl hc.symm))
    have hcs : ',' ∉ cs := fun hm => hl (List.mem_cons_of_mem c hm)
    simp only [List.cons_append, splitCommaChars, hc, List.append_eq, ih hcs]
    simp

/-- The trim of a character list absorbs one leading space. -/
theorem trimChars_cons_space (l : List Char) : trimChars (' ' :: l) = trimChars l := by
  have hws : Char.isWhitespace ' ' = true := rfl
  simp [trimChars, List.dropWhile_cons, hws]

/-- Splitting the comma-space join of comma-free trimmed groups and trimming
each piece recovers the groups. -/
theorem map_trim_split_join (ts : List (List Char)) (hne : ts ≠ [])
    (h : ∀ t ∈ ts, ',' ∉ t ∧ trimChars t = t) :
    (splitCommaChars (joinCommaSpaceChars ts)).map trimChars = ts := by
  induction ts with
  | nil => exact absurd rfl hne
  | cons t ts ih =>
    cases ts with
    | nil =>
      have ht := h t (List.mem_cons_self t [])
      simp only [joinCommaSpaceChars]
      rw [splitCommaChars_no_comma ht.1]
      simp [ht.2]
    | cons t2 ts2 =>
      have ht := h t (List.mem_cons_self t _)
      have hrest : ∀ u ∈ t2 :: ts2, ',' ∉ u ∧ trimChars u = u :=
        fun u hu => h u (List.mem_cons_of_mem t hu)
      have ihr := ih (by simp) hrest
      simp only [joinCommaSpaceChars]
      rw [splitCommaChars_append ht.1]
      obtain ⟨g, gs, hsplit⟩ :
          ∃ g gs, splitCommaChars (joinCommaSpaceChars (t2 :: ts2)) = g :: gs := by
        cases hs : splitCommaChars (joinCommaSpaceChars (t2 :: ts2)) with
        | nil => exact absurd hs (splitCommaChars_ne_nil _)
        | cons g gs => exact ⟨g, gs, rfl⟩
      have hspace : splitCommaChars (' ' :: joinCommaSpaceChars (t2 :: ts2)) =
          (' ' :: g) :: gs := by
        unfold splitCommaChars
        rw [if_neg (by decide : ¬ (' ' = ',')), hsplit]
      rw [hspace]
      simp only [List.map_cons]
      rw [ht.2, trimChars_cons_space]
      rw [hsplit, List.map_cons] at ihr
      rw [ihr]

/-- The comma-space join of a nonempty tag list other than the single empty
tag is a nonempty string. -/
theorem joinCommaSpace_ne_empty {ts : List String} (hne : ts ≠ []) (hone : ts ≠ [""]) :
    joinCommaSpace ts ≠ "" := by
  cases ts with
  | nil => exact absurd rfl hne
  | cons t ts2 =>
    cases ts2 with
    | nil =>
      intro hcontra
      apply hone
      have ht : t = "" := by
        rw [← string_mk_data t]
        rw [show joinCommaSpace [t] = String.mk t.data from rfl] at hcontra
        rw [hcontra]
      rw [ht]
    | cons t2 ts3 =>
      intro hcontra
      have h2 : joinCommaSpaceChars (List.map String.data (t :: t2 :: ts3)) = [] :=
        congrArg String.data hcontra
      simp [joinCommaSpaceChars] at h2

/-- The tags field of the edit form round-trips through handleSubmit for every
comma-free trimmed tag list other than the single empty tag. -/
theorem tags_field_roundtrip (ts : List String)
    (h : ∀ t ∈ ts, ',' ∉ t.data ∧ jsTrim t = t) (hone : ts ≠ [""]) :
    (if joinCommaSpace ts = "" then []
     else (jsSplitComma (joinCommaSpace ts)).map jsTrim) = ts := by
  cases ts with
  | nil =>
    rw [if_pos (show joinCommaSpace [] = "" from rfl)]
  | cons t ts2 =>
    rw [if_neg (joinCommaSpace_ne_empty (by simp) hone)]
    have hchars := map_trim_split_join ((t :: ts2).map String.data) (by simp) ?side
    case side =>
      intro u hu
      obtain ⟨w, hw, hwu⟩ := List.mem_map.mp hu
      obtain ⟨h1, h2⟩ := h w hw
      subst hwu
      refine ⟨h1, ?_⟩
      have := congrArg String.data h2
      rw [show (jsTrim w).data = trimChars w.data from rfl] at this
      exact this
    show (jsSplitComma (joinCommaSpace (t :: ts2))).map jsTrim = t :: ts2
    have hmaps : (jsSplitComma (joinCommaSpace (t :: ts2))).map jsTrim =
        (splitCommaChars (joinCommaSpaceChars ((t :: ts2).map String.data))).map
          (fun l => String.mk (trimChars l)) := by
      simp only [jsSplitComma, jsTrim, List.map_map]
      rfl
    rw [hmaps]
    rw [show (fun l => String.mk (trimChars l)) =
      (fun l => String.mk l) ∘ trimChars from rfl]
    rw [← List.map_map, hchars, List.map_map]
    have : ((fun l => String.mk l) ∘ String.data) = fun s : String => s := by
      funext s
      exact string_mk_data s
    rw [this]
    simp

/-- A source whose tag list is the single empty tag. -/
def c10SourceA : Source :=
  { id := 0
    name := "n"
    url := "u"
    category := none
    tags := [""]
    active := true
    last_checked := none }

/-- A source with a present-but-empty category. -/
def c10SourceB : Source :=
  { id := 1
    name := "n"
    url := "u"
    category := some ""
    tags := []
    active := true
    last_checked := none }

/-- Counterexample to C10 as stated: the tag list made of the single empty tag
is comma-free and trimmed, yet it joins to a blank field and submits as the
empty list; likewise a present-but-empty category submits as null. -/
theorem handleEdit_roundtrip_counterexample :
    (∀ t ∈ c10SourceA.tags, (',' ∉ t.data) ∧ jsTrim t = t) ∧
    (sourcePayloadOfForm (handleEditForm c10SourceA)).tags ≠ c10SourceA.tags ∧
    (∀ t ∈ c10SourceB.tags, (',' ∉ t.data) ∧ jsTrim t = t) ∧
    (sourcePayloadOfForm (handleEditForm c10SourceB)).category ≠ c10SourceB.category := by
  decide

/-- C10 (amended): opening the edit dialog on a source and submitting without
modification sends a PUT whose payload restores the source exactly, provided
each tag is comma-free and trimmed, the tag list is not the single empty tag,
and the category is not the present-but-empty string. -/
theorem handleEdit_roundtrip (st : SourcesState) (src : Source)
    (mutResp : Except Unit Unit) (refetchResp : Except Unit (List Source))
    (htags : ∀ t ∈ src.tags, (',' ∉ t.data) ∧ jsTrim t = t)
    (hone : src.tags ≠ [""]) (hcat : src.category ≠ some "") :
    (handleSubmit (handleEdit st src) mutResp refetchResp).1.head? =
      some (ApiRequest.putSources src.id
        { name := src.name, url := src.url, category := src.category, tags := src.tags }) := by
  have hc : (if src.category.getD "" = "" then none else some (src.category.getD "")) =
      src.category := by
    cases hcc : src.category with
    | none => simp
    | some c =>
      have hcn : ¬ c = "" := fun hh => hcat (by rw [hcc, hh])
      simp [hcn]
  have hpayload : sourcePayloadOfForm (handleEditForm src) =
      { name := src.name, url := src.url, category := src.category, tags := src.tags } := by
    unfold sourcePayloadOfForm handleEditForm
    rw [show SourceForm.category
      { name := src.name, url := src.url, category := src.category.getD "",
        tags := joinCommaSpace src.tags } = src.category.getD "" from rfl]
    rw [show SourceForm.tags
      { name := src.name, url := src.url, category := src.category.getD "",
        tags := joinCommaSpace src.tags } = joinCommaSpace src.tags from rfl]
    rw [hc, tags_field_roundtrip src.tags htags hone]
  cases mutResp <;> simp [handleSubmit, handleEdit, hpayload]

/-- A concrete source with ordinary tags and category. -/
def c10WitnessSource : Source :=
  { id := 5
    name := "Site"
    url := "https der"
    category := some "AI"
    tags := ["a", "b"]
    active := true
    last_checked := none }

/-- A concrete Sources state for the round-trip witness. -/
def c10WitnessState : SourcesState :=
  { sources := []
    dialogOpen := false
    editingSource := none
    formData := emptySourceForm }

/-- Witness for C10 (amended) at a concrete source. -/
theorem handleEdit_roundtrip_witness :
    (handleSubmit (handleEdit c10WitnessState c10WitnessSource) (.ok ()) (.ok [])).1.head? =
      some (ApiRequest.putSources 5
        { name := "Site", url := "https der", category := some "AI", tags := ["a", "b"] }) :=
  handleEdit_roundtrip c10WitnessState c10WitnessSource (.ok ()) (.ok [])
    (by decide) (by decide) (by decide)

/-- A concrete manually created summary. -/
def c6WitnessSummary : Summary :=
  { id := 9
    title := "t"
    summary := "s"
    source_name := "m"
    source_id := none
    category := none
    tags := none
    created_at := 1
    is_new := true }

/-- Witness for C6 at a concrete manually created summary. -/
theorem summaryBadges_classification_witness :
    ("✋ Manuel" ∈ summaryBadges c6WitnessSummary ↔ c6WitnessSummary.source_id = none) ∧
    ("🤖 Veille auto" ∈ summaryBadges c6WitnessSummary ↔ c6WitnessSummary.source_id ≠ none) ∧
    ¬ ("✋ Manuel" ∈ summaryBadges c6WitnessSummary ∧
        "🤖 Veille auto" ∈ summaryBadges c6WitnessSummary) :=
  summaryBadges_classification c6WitnessSummary
